import Mathlib

/-!
# mtpng C API sample (`src/c/sample.c`)

A shallow embedding of the sample driver of the mtpng C API: the row source
`read_func`, the sink callbacks `write_func` and `flush_func`, the `TRY`
macro and `main` with its `cleanup` label.

Conventions of the embedding.

* `size_t` is an unsigned 64-bit integer: a natural number, every arithmetic
  result reduced modulo `2 ^ 64`.
* A buffer reached through a `uint8_t*` is a map from offsets to byte values;
  a store at an offset updates the map at that offset only.
* The functions declared in `mtpng.h` are not part of the sample.  The library
  is a parameter of `main`: a function from the calls made so far and the
  current call to the result code and the value left in the handle whose
  address the call received.  A call changes no other variable of `main`.
* `main` has one loop, the jump from a `TRY` inside `cleanup` back to the
  label `cleanup`.  It is bounded by a fuel argument; a run that would pass
  the label once more than the fuel allows is reported with no return value.
-/

namespace Sample

/-! ## Machine integers and buffers -/

/-- The modulus of `size_t` arithmetic. -/
def SIZE_MOD : Nat := 2 ^ 64

/-- Addition of two `size_t` values. -/
def size_add (a b : Nat) : Nat := (a + b) % SIZE_MOD

/-- Multiplication of two `size_t` values. -/
def size_mul (a b : Nat) : Nat := (a * b) % SIZE_MOD

/-- Conversion of a `size_t` value to `uint8_t`. -/
def to_uint8 (v : Nat) : Nat := v % 256

/-- A byte buffer addressed by offset from its base pointer. -/
abbrev Buffer := Nat → Nat

/-- The store `bytes[i] = v` of a `uint8_t`. -/
def store (bytes : Buffer) (i v : Nat) : Buffer :=
  fun j => if j = i then to_uint8 v else bytes j

/-! ## The row source -/

/-- The struct `read_state` (lines 30-35). -/
structure read_state where
  width : Nat
  bpp : Nat
  stride : Nat
  y : Nat
  deriving DecidableEq

/-- The body of the `for` loop of `read_func` (lines 41-44) at column `x`. -/
def read_func_body (state : read_state) (bytes : Buffer) (x : Nat) : Buffer :=
  let i := size_mul x state.bpp
  let bytes := store bytes i (size_add x state.y % 256)
  let bytes := store bytes (size_add i 1) (size_add (size_mul 2 x) state.y % 256)
  let bytes := store bytes (size_add i 2) (size_add x (size_mul 2 state.y) % 256)
  bytes

/-- What a call of `read_func` leaves behind: the buffer, the state and the
returned length. -/
structure read_result where
  bytes : Buffer
  state : read_state
  ret : Nat

/-- The function `read_func` (lines 37-48): the loop runs `x` over
`0, 1, ..., width - 1`, then `y` is incremented and `len` is returned. -/
def read_func (state : read_state) (bytes : Buffer) (len : Nat) : read_result :=
  let bytes := (List.range state.width).foldl (read_func_body state) bytes
  let state := { state with y := size_add state.y 1 }
  { bytes := bytes, state := state, ret := len }

/-- The state of the row source after `n` successive calls of `read_func`,
each on the buffer and with the length the caller chooses for that call. -/
def read_calls (bufs : Nat → Buffer) (lens : Nat → Nat) (state : read_state) : Nat → read_state
  | 0 => state
  | n + 1 =>
    (read_func (read_calls bufs lens state n) (bufs n) (lens n)).state

/-- The buffer the `k`-th call (0-based) of a run of successive calls
produces. -/
def read_calls_row (bufs : Nat → Buffer) (lens : Nat → Nat) (state : read_state) (k : Nat) :
    Buffer :=
  (read_func (read_calls bufs lens state k) (bufs k) (lens k)).bytes

/-- The pixel at column `x` of a Truecolor scanline: its three bytes. -/
def pixel (bytes : Buffer) (x : Nat) : Nat × Nat × Nat :=
  (bytes (3 * x), bytes (3 * x + 1), bytes (3 * x + 2))

/-- The read state of a 4×4 Truecolor image before its first row. -/
def state_4x4 : read_state := { width := 4, bpp := 3, stride := 12, y := 0 }

/-- The pixel at `(x, y)` of the image that successive `read_func` calls
starting from `state_4x4` generate into zeroed buffers of `stride` bytes. -/
def pixel_4x4 (x y : Nat) : Nat × Nat × Nat :=
  pixel (read_calls_row (fun _ => fun _ => 0) (fun _ => 12) state_4x4 y) x

/-! ## The sink callbacks -/

/-- The function `write_func` (lines 50-54); `fwrite` is the C library call,
applied to the buffer, the item size, the count and the stream. -/
def write_func (fwrite : Buffer → Nat → Nat → Nat → Nat) (user_data : Nat) (bytes : Buffer)
    (len : Nat) : Nat :=
  let out := user_data
  fwrite bytes 1 len out

/-- The function `flush_func` (lines 56-64); `fflush` is the C library call
on the stream. -/
def flush_func (fflush : Nat → Int) (user_data : Nat) : Bool :=
  let out := user_data
  if fflush out = 0 then true else false

/-! ## The library interface -/

/-- The constants of `mtpng.h` the sample uses; the header is not part of the
sample, so their values are parameters. -/
structure mtpng_h where
  MTPNG_RESULT_OK : Int
  MTPNG_THREADS_DEFAULT : Nat
  MTPNG_COLOR_TRUECOLOR : Int
  MTPNG_FILTER_ADAPTIVE : Int

/-- The library functions `main` calls. -/
inductive LibFn where
  | mtpng_threadpool_new
  | mtpng_encoder_new
  | mtpng_encoder_set_chunk_size
  | mtpng_encoder_set_size
  | mtpng_encoder_set_color
  | mtpng_encoder_set_filter
  | mtpng_encoder_write_header
  | mtpng_encoder_write_image
  | mtpng_encoder_finish
  | mtpng_encoder_release
  | mtpng_threadpool_release
  deriving DecidableEq

/-- A library call with its arguments.  A pointer is a number, `NULL` is `0`.
Where the call receives the address of a handle (`&pool`, `&encoder`) the
argument recorded is the value the handle holds at the time of the call.
The callbacks passed to `mtpng_encoder_new` and `mtpng_encoder_write_image`
are always `write_func`, `flush_func` and `read_func` and are not recorded;
`mtpng_encoder_write_image` records the `read_state` it is given. -/
inductive Call where
  | threadpool_new (pool : Nat) (threads : Nat)
  | encoder_new (encoder : Nat) (user_data : Nat) (pool : Nat)
  | encoder_set_chunk_size (encoder : Nat) (chunk_size : Nat)
  | encoder_set_size (encoder : Nat) (width height : Nat)
  | encoder_set_color (encoder : Nat) (color_type : Int) (depth : Nat)
  | encoder_set_filter (encoder : Nat) (filter_mode : Int)
  | encoder_write_header (encoder : Nat)
  | encoder_write_image (encoder : Nat) (state : read_state)
  | encoder_finish (encoder : Nat)
  | encoder_release (encoder : Nat)
  | threadpool_release (pool : Nat)
  deriving DecidableEq

/-- The library function a call invokes. -/
def Call.fn : Call → LibFn
  | .threadpool_new _ _ => .mtpng_threadpool_new
  | .encoder_new _ _ _ => .mtpng_encoder_new
  | .encoder_set_chunk_size _ _ => .mtpng_encoder_set_chunk_size
  | .encoder_set_size _ _ _ => .mtpng_encoder_set_size
  | .encoder_set_color _ _ _ => .mtpng_encoder_set_color
  | .encoder_set_filter _ _ => .mtpng_encoder_set_filter
  | .encoder_write_header _ => .mtpng_encoder_write_header
  | .encoder_write_image _ _ => .mtpng_encoder_write_image
  | .encoder_finish _ => .mtpng_encoder_finish
  | .encoder_release _ => .mtpng_encoder_release
  | .threadpool_release _ => .mtpng_threadpool_release

/-- Whether a call is one of the two release calls. -/
def Call.isRelease : Call → Bool
  | .encoder_release _ => true
  | .threadpool_release _ => true
  | _ => false

/-- What a library call answers: the `mtpng_result` it returns and the value
it leaves in the handle whose address it was given (ignored for a call that
receives the handle by value). -/
structure Resp where
  result : Int
  handle : Nat
  deriving DecidableEq

/-- The library: the answer to a call may depend on every call made before
it and on their answers. -/
abbrev Lib := List (Call × Resp) → Call → Resp

/-- A line the program prints. -/
inductive Output where
  | failed_to_open
  | error (code : Int)
  | done
  | failed
  deriving DecidableEq

/-- The observable state of a run: the library calls made so far with their
answers, oldest first, and the lines printed on `stderr` and `stdout`. -/
structure World where
  trace : List (Call × Resp)
  stderr : List Output
  stdout : List Output
  deriving DecidableEq

/-- How a run ends: `ret` is the value `main` returns, `none` while the run
is still inside `cleanup` when the fuel is used up. -/
structure Run where
  ret : Option Int
  world : World
  deriving DecidableEq

/-- Make a library call: ask the library and append the call and its
answer to the trace. -/
def World.call (lib : Lib) (w : World) (c : Call) : Resp × World :=
  let r := lib w.trace c
  (r, { w with trace := w.trace ++ [(c, r)] })

/-- Print a line on `stderr`. -/
def World.fprintf_stderr (w : World) (o : Output) : World :=
  { w with stderr := w.stderr ++ [o] }

/-- Print a line on `stdout`. -/
def World.printf (w : World) (o : Output) : World :=
  { w with stdout := w.stdout ++ [o] }

/-- The macro `TRY` (lines 70-77) applied to the library call `ret`: the call
is made and its result bound to `_ret`; when `_ret` differs from
`MTPNG_RESULT_OK` the error is printed and control goes to `cleanup`,
otherwise it falls through to the next statement `next`.  Both continuations
receive the value the call left in the handle whose address it was given. -/
def TRY (h : mtpng_h) (lib : Lib) (w : World) (ret : Call) (cleanup next : Nat → World → Run) :
    Run :=
  let (r, w) := w.call lib ret
  let _ret := r.result
  if _ret ≠ h.MTPNG_RESULT_OK then
    cleanup r.handle (w.fprintf_stderr (.error _ret))
  else
    next r.handle w

/-- The code at label `cleanup` (lines 138-147) with the values `encoder` and
`pool` hold on arrival.  A `TRY` that fails here jumps to `cleanup` again,
with the values the handles hold by then; `fuel` bounds the number of times
the label is reached, and a run that reaches it once more has `ret = none`. -/
def cleanup (h : mtpng_h) (lib : Lib) : Nat → Nat → Nat → World → Run
  | 0, _, _, w => { ret := none, world := w }
  | fuel + 1, encoder, pool, w =>
    let line_146 (w : World) : Run :=
      let w := w.printf .failed
      { ret := some 1, world := w }
    let line_142 (encoder : Nat) (w : World) : Run :=
      if pool ≠ 0 then
        TRY h lib w (.threadpool_release pool)
          (fun pool w => cleanup h lib fuel encoder pool w)
          (fun _ w => line_146 w)
      else
        line_146 w
    if encoder ≠ 0 then
      TRY h lib w (.encoder_release encoder)
        (fun encoder w => cleanup h lib fuel encoder pool w)
        (fun encoder w => line_142 encoder w)
    else
      line_142 encoder w

/-- The function `main` (lines 79-148).  `fopen_result` is the pointer `fopen`
returns.  `encoder_indet` is the value read from `encoder` when `cleanup` is
reached from the `TRY` of line 105: that jump passes over the declaration
`mtpng_encoder* encoder = NULL` of line 107, so the initialiser has not run
and the variable holds an indeterminate value.  Calls that receive `encoder`
by value leave the handle as it is. -/
def main (h : mtpng_h) (lib : Lib) (fopen_result : Nat) (encoder_indet : Nat) (fuel : Nat) : Run :=
  let threads := h.MTPNG_THREADS_DEFAULT
  let width := 1024
  let height := 768
  let channels := 3
  let bpp := channels
  let stride := size_mul width bpp
  let state : read_state := { stride := stride, width := width, bpp := bpp, y := 0 }
  let w : World := { trace := [], stderr := [], stdout := [] }
  let out := fopen_result
  if out = 0 then
    let w := w.fprintf_stderr .failed_to_open
    { ret := some 1, world := w }
  else
  let pool := 0
  TRY h lib w (.threadpool_new pool threads)
    (fun pool w => cleanup h lib fuel encoder_indet pool w) fun pool w =>
  let encoder := 0
  TRY h lib w (.encoder_new encoder out pool)
    (fun encoder w => cleanup h lib fuel encoder pool w) fun encoder w =>
  TRY h lib w (.encoder_set_chunk_size encoder 200000)
    (fun _ w => cleanup h lib fuel encoder pool w) fun _ w =>
  TRY h lib w (.encoder_set_size encoder 1024 768)
    (fun _ w => cleanup h lib fuel encoder pool w) fun _ w =>
  TRY h lib w (.encoder_set_color encoder h.MTPNG_COLOR_TRUECOLOR 8)
    (fun _ w => cleanup h lib fuel encoder pool w) fun _ w =>
  TRY h lib w (.encoder_set_filter encoder h.MTPNG_FILTER_ADAPTIVE)
    (fun _ w => cleanup h lib fuel encoder pool w) fun _ w =>
  TRY h lib w (.encoder_write_header encoder)
    (fun _ w => cleanup h lib fuel encoder pool w) fun _ w =>
  TRY h lib w (.encoder_write_image encoder state)
    (fun _ w => cleanup h lib fuel encoder pool w) fun _ w =>
  TRY h lib w (.encoder_finish encoder)
    (fun encoder w => cleanup h lib fuel encoder pool w) fun encoder w =>
  TRY h lib w (.threadpool_release pool)
    (fun pool w => cleanup h lib fuel encoder pool w) fun _ w =>
  let w := w.printf .done
  { ret := some 0, world := w }

/-! ## Auxiliary notions for the statements -/

/-- The calls of `mtpng_threadpool_release` in a trace, oldest first. -/
def pool_releases (t : List (Call × Resp)) : List Call :=
  (t.map Prod.fst).filter fun c => c.fn = .mtpng_threadpool_release

/-- The calls of `mtpng_encoder_new` in a trace, oldest first. -/
def encoder_news (t : List (Call × Resp)) : List Call :=
  (t.map Prod.fst).filter fun c => c.fn = .mtpng_encoder_new

/-- A library whose release calls, when they do not return
`MTPNG_RESULT_OK`, leave `NULL` in the handle they were given. -/
def release_error_clears_handle (h : mtpng_h) (lib : Lib) : Prop :=
  ∀ hist c, c.isRelease = true → (lib hist c).result ≠ h.MTPNG_RESULT_OK →
    (lib hist c).handle = 0

/-- The number of further passes through `cleanup` that handles `encoder`
and `pool` can cause when a failing release clears its handle. -/
def cleanup_measure (encoder pool : Nat) : Nat :=
  (if pool = 0 then 0 else 2) + (if encoder = 0 then 0 else 1)

/-! ## Concrete headers and libraries -/

/-- Header constants with `MTPNG_RESULT_OK = 0`. -/
def header0 : mtpng_h :=
  { MTPNG_RESULT_OK := 0, MTPNG_THREADS_DEFAULT := 0, MTPNG_COLOR_TRUECOLOR := 2,
    MTPNG_FILTER_ADAPTIVE := -1 }

/-- A library in which every call succeeds: the constructors store the
handles `1` and `2`, `finish` and the release calls store `NULL`. -/
def lib_ok : Lib := fun _ c =>
  match c with
  | .threadpool_new _ _ => ⟨0, 1⟩
  | .encoder_new _ _ _ => ⟨0, 2⟩
  | _ => ⟨0, 0⟩

/-- A library in which `mtpng_encoder_new` fails and every
`mtpng_threadpool_release` fails without touching the handle. -/
def lib_pool_release_fails : Lib := fun _ c =>
  match c with
  | .threadpool_new _ _ => ⟨0, 1⟩
  | .encoder_new e _ _ => ⟨1, e⟩
  | .threadpool_release p => ⟨1, p⟩
  | _ => ⟨0, 0⟩

/-- A library in which `mtpng_encoder_set_chunk_size` fails and every
`mtpng_encoder_release` fails without touching the handle. -/
def lib_encoder_release_fails : Lib := fun _ c =>
  match c with
  | .threadpool_new _ _ => ⟨0, 1⟩
  | .encoder_new _ _ _ => ⟨0, 2⟩
  | .encoder_set_chunk_size _ _ => ⟨1, 0⟩
  | .encoder_release e => ⟨1, e⟩
  | _ => ⟨0, 0⟩

/-- A library in which the first `mtpng_threadpool_release`, the tenth call
of the run, fails without touching the handle and everything else succeeds. -/
def lib_first_pool_release_fails : Lib := fun hist c =>
  match c with
  | .threadpool_new _ _ => ⟨0, 1⟩
  | .encoder_new _ _ _ => ⟨0, 2⟩
  | .threadpool_release p => if hist.length = 9 then ⟨1, p⟩ else ⟨0, 0⟩
  | _ => ⟨0, 0⟩

/-- A library in which `mtpng_threadpool_new` fails, leaving `pool` as it
was, and everything else succeeds. -/
def lib_threadpool_new_fails : Lib := fun _ c =>
  match c with
  | .threadpool_new p _ => ⟨1, p⟩
  | .encoder_new _ _ _ => ⟨0, 2⟩
  | _ => ⟨0, 0⟩

/-- A library in which `mtpng_encoder_set_size` fails, the following
`mtpng_encoder_release` fails too but clears the handle, and the pool
release succeeds. -/
def lib_set_size_fails : Lib := fun _ c =>
  match c with
  | .threadpool_new _ _ => ⟨0, 1⟩
  | .encoder_new _ _ _ => ⟨0, 2⟩
  | .encoder_set_size _ _ _ => ⟨1, 0⟩
  | .encoder_release _ => ⟨1, 0⟩
  | _ => ⟨0, 0⟩

/-- The library functions the statements of `main` call, in program order
(lines 105-132). -/
def main_path : List LibFn :=
  [.mtpng_threadpool_new, .mtpng_encoder_new, .mtpng_encoder_set_chunk_size,
   .mtpng_encoder_set_size, .mtpng_encoder_set_color, .mtpng_encoder_set_filter,
   .mtpng_encoder_write_header, .mtpng_encoder_write_image, .mtpng_encoder_finish,
   .mtpng_threadpool_release]

/-- The two shapes a run of `main` can have once `fopen` has succeeded, `p0`
being the handle `mtpng_threadpool_new` stored: every call returned
`MTPNG_RESULT_OK` and `main` returned 0 after the calls of `main_path`, one of
them a pool release, and after printing `Done.`; or the calls
`pre` succeeded, the call `c` answered `r` with a failing result, and the run
went on at `cleanup`, either with no pool release made yet and `pool = p0`,
or with `c` itself the pool release of line 132. -/
def RunShape (h : mtpng_h) (lib : Lib) (fuel p0 : Nat) (run : Run) : Prop :=
  (run.ret = some 0 ∧ (∀ x ∈ run.world.trace, x.2.result = h.MTPNG_RESULT_OK) ∧
    pool_releases run.world.trace = [Call.threadpool_release p0] ∧
    run.world.trace.map (fun e => e.1.fn) = main_path ∧
    run.world.stdout = [Output.done] ∧ run.world.stderr = []) ∨
  (∃ pre c r encoder pool,
    (∀ x ∈ pre, x.2.result = h.MTPNG_RESULT_OK) ∧ r.result ≠ h.MTPNG_RESULT_OK ∧
    run = cleanup h lib fuel encoder pool
      { trace := pre ++ [(c, r)], stderr := [Output.error r.result], stdout := [] } ∧
    ((pool_releases (pre ++ [(c, r)]) = [] ∧ pool = p0) ∨
     (pool_releases (pre ++ [(c, r)]) = [Call.threadpool_release p0] ∧
       c = Call.threadpool_release p0 ∧ lib pre c = r ∧ pool = r.handle)))

/-- What `cleanup` may add to the world `w` it starts from: release calls on
the trace, lines on `stderr`, and a return value that is not 0. -/
def OnlyReleasesSince (w : World) (run : Run) : Prop :=
  ∃ rest more, run.world.trace = w.trace ++ rest ∧ (∀ x ∈ rest, x.1.isRelease = true) ∧
    run.world.stderr = w.stderr ++ more ∧ run.ret ≠ some 0

/-! ## Theorems -/

/-! ### The row source -/

/-- Reduction modulo `2 ^ 64` does not change a sum modulo 256. -/
theorem size_add_mod_256 (a b : Nat) : size_add a b % 256 = (a + b) % 256 := by
  unfold size_add SIZE_MOD
  omega

/-- Doubling in `size_t` arithmetic agrees with doubling modulo 256. -/
theorem size_mul_two_add_mod_256 (x y : Nat) : (size_mul 2 x + y) % 256 = (2 * x + y) % 256 := by
  unfold size_mul SIZE_MOD
  omega

/-- Doubling the second summand in `size_t` arithmetic, modulo 256. -/
theorem add_size_mul_two_mod_256 (x y : Nat) : (x + size_mul 2 y) % 256 = (x + 2 * y) % 256 := by
  unfold size_mul SIZE_MOD
  omega

/-- The loop body at column `x`, for three bytes per pixel and offsets that
fit in `size_t`: three stores at `3x`, `3x + 1` and `3x + 2`. -/
theorem read_func_body_apply (state : read_state) (bytes : Buffer) (x j : Nat)
    (hb : state.bpp = 3) (hx : 3 * x + 2 < SIZE_MOD) :
    read_func_body state bytes x j =
      if j = 3 * x + 2 then (x + 2 * state.y) % 256
      else if j = 3 * x + 1 then (2 * x + state.y) % 256
      else if j = 3 * x then (x + state.y) % 256
      else bytes j := by
  have hi : size_mul x state.bpp = 3 * x := by
    unfold size_mul; rw [hb]; unfold SIZE_MOD at *; omega
  have h1 : size_add (3 * x) 1 = 3 * x + 1 := by
    unfold size_add; unfold SIZE_MOD at *; omega
  have h2 : size_add (3 * x) 2 = 3 * x + 2 := by
    unfold size_add; unfold SIZE_MOD at *; omega
  simp only [read_func_body, store, to_uint8, hi, h1, h2, size_add_mod_256,
    size_mul_two_add_mod_256, add_size_mul_two_mod_256, Nat.mod_mod]

/-- The buffer after the first `n` iterations of the loop of `read_func`. -/
theorem read_func_loop_apply (state : read_state) (bytes : Buffer)
    (hb : state.bpp = 3) (n : Nat) (hn : 3 * n < SIZE_MOD + 1) (j : Nat) :
    (List.range n).foldl (read_func_body state) bytes j =
      if j < 3 * n then
        (if j % 3 = 2 then (j / 3 + 2 * state.y) % 256
         else if j % 3 = 1 then (2 * (j / 3) + state.y) % 256
         else (j / 3 + state.y) % 256)
      else bytes j := by
  induction n generalizing j with
  | zero => simp
  | succ n ih =>
    rw [List.range_succ, List.foldl_append, List.foldl_cons, List.foldl_nil,
      read_func_body_apply state _ n j hb (by omega), ih (by omega)]
    by_cases h2 : j = 3 * n + 2
    · subst h2
      have e1 : (3 * n + 2) % 3 = 2 := by omega
      have e2 : (3 * n + 2) / 3 = n := by omega
      have e3 : 3 * n + 2 < 3 * (n + 1) := by omega
      simp [e1, e2, e3]
    · by_cases h1 : j = 3 * n + 1
      · subst h1
        have e1 : (3 * n + 1) % 3 = 1 := by omega
        have e2 : (3 * n + 1) / 3 = n := by omega
        have e3 : 3 * n + 1 < 3 * (n + 1) := by omega
        simp [e1, e2, e3]
      · by_cases h0 : j = 3 * n
        · subst h0
          have e1 : (3 * n) % 3 = 0 := by omega
          have e2 : (3 * n) / 3 = n := by omega
          have e3 : 3 * n < 3 * (n + 1) := by omega
          simp [e1, e2, e3]
        · simp only [h2, h1, h0, if_false]
          by_cases hlt : j < 3 * n
          · have : j < 3 * (n + 1) := by omega
            simp [hlt, this]
          · have : ¬ j < 3 * (n + 1) := by omega
            simp [hlt, this]

/-- C5: for every read state, buffer and requested length `len`, `read_func`
returns exactly `len`. -/
theorem read_func_returns_len (state : read_state) (bytes : Buffer) (len : Nat) :
    (read_func state bytes len).ret = len := rfl

/-- C6: for a read state with `bpp = 3` and `stride = width * bpp` (a
`size_t` value), a call of `read_func` with `len = stride` sets, for each
`x < width`, the bytes at `3x`, `3x + 1`, `3x + 2` to `(x + y) mod 256`,
`(2x + y) mod 256`, `(x + 2y) mod 256` with `y` the cursor before the call,
whatever the buffer held before; every offset below `len` is one of these,
and every offset from `len` on keeps its old content. -/
theorem read_func_fills_one_row (state : read_state) (bytes : Buffer)
    (hb : state.bpp = 3) (hs : state.stride = state.width * state.bpp)
    (hsize : state.stride < SIZE_MOD) :
    (∀ x, x < state.width →
      (read_func state bytes state.stride).bytes (3 * x) = (x + state.y) % 256 ∧
      (read_func state bytes state.stride).bytes (3 * x + 1) = (2 * x + state.y) % 256 ∧
      (read_func state bytes state.stride).bytes (3 * x + 2) = (x + 2 * state.y) % 256) ∧
    (∀ i, i < state.stride →
      ∃ x, x < state.width ∧ (i = 3 * x ∨ i = 3 * x + 1 ∨ i = 3 * x + 2)) ∧
    (∀ i, state.stride ≤ i → (read_func state bytes state.stride).bytes i = bytes i) ∧
    (read_func state bytes state.stride).ret = state.stride := by
  have hw : 3 * state.width < SIZE_MOD + 1 := by rw [hs, hb] at hsize; omega
  have hst : state.stride = 3 * state.width := by rw [hs, hb]; omega
  refine ⟨?_, ?_, ?_, rfl⟩
  · intro x hx
    simp only [read_func]
    rw [read_func_loop_apply state bytes hb _ hw, read_func_loop_apply state bytes hb _ hw,
      read_func_loop_apply state bytes hb _ hw]
    have a0 : 3 * x < 3 * state.width := by omega
    have a1 : 3 * x + 1 < 3 * state.width := by omega
    have a2 : 3 * x + 2 < 3 * state.width := by omega
    have e0 : (3 * x) % 3 = 0 := by omega
    have e1 : (3 * x + 1) % 3 = 1 := by omega
    have e2 : (3 * x + 2) % 3 = 2 := by omega
    have d0 : (3 * x) / 3 = x := by omega
    have d1 : (3 * x + 1) / 3 = x := by omega
    have d2 : (3 * x + 2) / 3 = x := by omega
    simp [a0, a1, a2, e0, e1, e2, d0, d1, d2]
  · intro i hi
    refine ⟨i / 3, by omega, by omega⟩
  · intro i hi
    simp only [read_func]
    rw [read_func_loop_apply state bytes hb _ hw]
    have : ¬ i < 3 * state.width := by omega
    simp [this]

/-- Witness for C6: the read state of `main` (width 1024, three bytes per
pixel, stride 3072) on a zeroed buffer. -/
theorem read_func_fills_one_row_witness :
    (∀ x, x < 1024 →
      (read_func ⟨1024, 3, 3072, 5⟩ (fun _ => 0) 3072).bytes (3 * x) = (x + 5) % 256 ∧
      (read_func ⟨1024, 3, 3072, 5⟩ (fun _ => 0) 3072).bytes (3 * x + 1) = (2 * x + 5) % 256 ∧
      (read_func ⟨1024, 3, 3072, 5⟩ (fun _ => 0) 3072).bytes (3 * x + 2) = (x + 2 * 5) % 256) ∧
    (∀ i, i < 3072 → ∃ x, x < 1024 ∧ (i = 3 * x ∨ i = 3 * x + 1 ∨ i = 3 * x + 2)) ∧
    (∀ i, 3072 ≤ i → (read_func ⟨1024, 3, 3072, 5⟩ (fun _ => 0) 3072).bytes i = 0) ∧
    (read_func ⟨1024, 3, 3072, 5⟩ (fun _ => 0) 3072).ret = 3072 :=
  read_func_fills_one_row ⟨1024, 3, 3072, 5⟩ (fun _ => 0) rfl (by decide) (by decide)

/-- One call of `read_func` on a cursor below `SIZE_MAX` changes the state in
the cursor only, which grows by one. -/
theorem read_func_next_state (state : read_state) (bytes : Buffer) (len : Nat)
    (hy : state.y < SIZE_MOD - 1) :
    (read_func state bytes len).state = { state with y := state.y + 1 } := by
  have e : size_add state.y 1 = state.y + 1 := by
    unfold size_add; unfold SIZE_MOD at *; omega
  simp [read_func, e]

/-- The state after `n` successive calls that start at cursor `0`. -/
theorem read_calls_from_zero (state : read_state) (bufs : Nat → Buffer) (lens : Nat → Nat)
    (n : Nat) (hn : n < SIZE_MOD) :
    read_calls bufs lens { state with y := 0 } n = { state with y := n } := by
  induction n with
  | zero => rfl
  | succ n ih =>
    rw [read_calls, ih (by omega), read_func_next_state _ _ _ (by simp only; omega)]

/-- C7, counterexample: at the cursor `SIZE_MAX = 2 ^ 64 - 1` one call of
`read_func` does not increase `y` by one, it sets it to `0`. -/
theorem cursor_wraps_at_size_max :
    (read_func ⟨4, 3, 12, 2 ^ 64 - 1⟩ (fun _ => 0) 12).state.y = 0 ∧
    (read_func ⟨4, 3, 12, 2 ^ 64 - 1⟩ (fun _ => 0) 12).state.y ≠ (2 ^ 64 - 1) + 1 := by
  decide

/-- C7, amended: for a read state whose cursor is below `SIZE_MAX`, one call
of `read_func` increases `y` by exactly one and leaves `width`, `bpp` and
`stride` unchanged; so after `n` calls (`n` a `size_t` value) that start from
`y = 0` the cursor is `n`, and the `k`-th call (0-based) produced what
`read_func` produces at cursor `k`, the scanline of row `k`. -/
theorem read_func_cursor (state : read_state) (bytes : Buffer) (len : Nat)
    (bufs : Nat → Buffer) (lens : Nat → Nat) (n : Nat)
    (hy : state.y < SIZE_MOD - 1) (hn : n < SIZE_MOD) :
    (read_func state bytes len).state.y = state.y + 1 ∧
    (read_func state bytes len).state.width = state.width ∧
    (read_func state bytes len).state.bpp = state.bpp ∧
    (read_func state bytes len).state.stride = state.stride ∧
    read_calls bufs lens { state with y := 0 } n = { state with y := n } ∧
    ∀ k, k < n →
      read_calls_row bufs lens { state with y := 0 } k =
        (read_func { state with y := k } (bufs k) (lens k)).bytes := by
  rw [read_func_next_state state bytes len hy]
  refine ⟨rfl, rfl, rfl, rfl, read_calls_from_zero state bufs lens n hn, ?_⟩
  intro k hk
  rw [read_calls_row, read_calls_from_zero state bufs lens k (by omega)]

/-- Witness for C7: the 4×4 image, four calls. -/
theorem read_func_cursor_witness :
    (read_func state_4x4 (fun _ => 0) 12).state.y = 0 + 1 ∧
    (read_func state_4x4 (fun _ => 0) 12).state.width = 4 ∧
    (read_func state_4x4 (fun _ => 0) 12).state.bpp = 3 ∧
    (read_func state_4x4 (fun _ => 0) 12).state.stride = 12 ∧
    read_calls (fun _ => fun _ => 0) (fun _ => 12) state_4x4 4 = { state_4x4 with y := 4 } ∧
    ∀ k, k < 4 →
      read_calls_row (fun _ => fun _ => 0) (fun _ => 12) state_4x4 k =
        (read_func { state_4x4 with y := k } (fun _ => 0) 12).bytes :=
  read_func_cursor state_4x4 (fun _ => 0) 12 (fun _ => fun _ => 0) (fun _ => 12) 4
    (by decide) (by decide)

/-- C8: `flush_func` returns `true` exactly when `fflush` returns `0`,
whatever `fflush` returns. -/
theorem flush_func_true_iff (fflush : Nat → Int) (user_data : Nat) :
    flush_func fflush user_data = true ↔ fflush user_data = 0 := by
  simp [flush_func]

/-- The pixels of the 4×4 image as `read_func` generates them. -/
theorem pixel_4x4_eq (x y : Nat) (hx : x < 4) (hy : y < 4) :
    pixel_4x4 x y = ((x + y) % 256, (2 * x + y) % 256, (x + 2 * y) % 256) := by
  have key : ∀ a : Fin 4, ∀ b : Fin 4,
      pixel_4x4 a.val b.val =
        ((a.val + b.val) % 256, (2 * a.val + b.val) % 256, (a.val + 2 * b.val) % 256) := by
    decide
  exact key ⟨x, hx⟩ ⟨y, hy⟩

/-- C9: in the 4×4 Truecolor image that four successive `read_func` calls
starting from `y = 0` generate (width 4, three bytes per pixel, stride 12),
the pixel at `(x, y)` carries `((x + y) mod 256, (2x + y) mod 256,
(x + 2y) mod 256)`, and two pixels at different positions carry different
values. -/
theorem pixels_4x4_distinct (x y x2 y2 : Nat) (hx : x < 4) (hy : y < 4) (hx2 : x2 < 4)
    (hy2 : y2 < 4) (hne : (x, y) ≠ (x2, y2)) :
    pixel_4x4 x y = ((x + y) % 256, (2 * x + y) % 256, (x + 2 * y) % 256) ∧
    pixel_4x4 x2 y2 = ((x2 + y2) % 256, (2 * x2 + y2) % 256, (x2 + 2 * y2) % 256) ∧
    pixel_4x4 x y ≠ pixel_4x4 x2 y2 := by
  refine ⟨pixel_4x4_eq x y hx hy, pixel_4x4_eq x2 y2 hx2 hy2, ?_⟩
  rw [pixel_4x4_eq x y hx hy, pixel_4x4_eq x2 y2 hx2 hy2]
  intro heq
  apply hne
  simp only [Prod.mk.injEq] at heq ⊢
  omega

/-- Witness for C9: the pixels at `(0, 0)` and `(1, 0)`. -/
theorem pixels_4x4_distinct_witness :
    pixel_4x4 0 0 = (0, 0, 0) ∧ pixel_4x4 1 0 = (1, 2, 1) ∧ pixel_4x4 0 0 ≠ pixel_4x4 1 0 :=
  pixels_4x4_distinct 0 0 1 0 (by decide) (by decide) (by decide) (by decide) (by decide)

/-! ### The driver: auxiliary lemmas -/

/-- Case analysis on a `TRY`: the call failed and control is at `cleanup`, or
it succeeded and control is at the next statement. -/
theorem TRY_cases (P : Run → Prop) (h : mtpng_h) (lib : Lib) (w : World) (c : Call)
    (cl nx : Nat → World → Run)
    (hfail : (lib w.trace c).result ≠ h.MTPNG_RESULT_OK →
      P (cl (lib w.trace c).handle
        { trace := w.trace ++ [(c, lib w.trace c)],
          stderr := w.stderr ++ [Output.error (lib w.trace c).result],
          stdout := w.stdout }))
    (hok : (lib w.trace c).result = h.MTPNG_RESULT_OK →
      P (nx (lib w.trace c).handle
        { trace := w.trace ++ [(c, lib w.trace c)], stderr := w.stderr, stdout := w.stdout })) :
    P (TRY h lib w c cl nx) := by
  by_cases hr : (lib w.trace c).result = h.MTPNG_RESULT_OK
  · simpa [TRY, World.call, hr] using hok hr
  · simpa [TRY, World.call, World.fprintf_stderr, hr] using hfail hr

/-- The measure of `cleanup` is at most 3. -/
theorem cleanup_measure_le (encoder pool : Nat) : cleanup_measure encoder pool ≤ 3 := by
  unfold cleanup_measure
  split <;> split <;> omega

/-- When a failing release clears its handle, `cleanup` returns 1 as soon as
the fuel exceeds `cleanup_measure`, and it adds exactly one
`mtpng_threadpool_release` call to the trace when `pool` is non-NULL on
arrival, none when it is NULL. -/
theorem cleanup_returns (h : mtpng_h) (lib : Lib) (H : release_error_clears_handle h lib)
    (fuel encoder pool : Nat) (w : World) (hfuel : cleanup_measure encoder pool < fuel) :
    (cleanup h lib fuel encoder pool w).ret = some 1 ∧
    pool_releases (cleanup h lib fuel encoder pool w).world.trace =
      pool_releases w.trace ++ (if pool = 0 then [] else [Call.threadpool_release pool]) := by
  induction fuel generalizing encoder pool w with
  | zero => omega
  | succ n ih =>
    by_cases he : encoder = 0
    · by_cases hp : pool = 0
      · simp [cleanup, he, hp, World.printf]
      · by_cases hr : (lib w.trace (Call.threadpool_release pool)).result = h.MTPNG_RESULT_OK
        · simp [cleanup, he, hp, TRY, World.call, World.printf, hr, pool_releases,
            Call.fn]
        · have hz := H w.trace (Call.threadpool_release pool) rfl hr
          have hm : cleanup_measure 0 0 < n := by
            simp [cleanup_measure, he, hp] at hfuel ⊢; omega
          have := ih 0 0 (World.fprintf_stderr
            { w with trace := w.trace ++ [(Call.threadpool_release pool,
              lib w.trace (Call.threadpool_release pool))] }
            (Output.error (lib w.trace (Call.threadpool_release pool)).result)) hm
          simp [cleanup, he, hp, TRY, World.call, hr, hz]
          simpa [World.fprintf_stderr, pool_releases, Call.fn, hp] using this
    · by_cases hr : (lib w.trace (Call.encoder_release encoder)).result = h.MTPNG_RESULT_OK
      · by_cases hp : pool = 0
        · simp [cleanup, he, hp, TRY, World.call, World.printf, hr, pool_releases,
            Call.fn]
        · by_cases hr2 : (lib (w.trace ++ [(Call.encoder_release encoder,
              lib w.trace (Call.encoder_release encoder))])
              (Call.threadpool_release pool)).result = h.MTPNG_RESULT_OK
          · simp [cleanup, he, hp, TRY, World.call, World.printf, hr, hr2,
              pool_releases, Call.fn]
          · have hz := H _ (Call.threadpool_release pool) rfl hr2
            have hm : cleanup_measure (lib w.trace (Call.encoder_release encoder)).handle 0
                < n := by
              simp [cleanup_measure, he, hp] at hfuel ⊢
              split <;> omega
            have := ih (lib w.trace (Call.encoder_release encoder)).handle 0
              (World.fprintf_stderr
                { w with trace := w.trace ++ [(Call.encoder_release encoder,
                    lib w.trace (Call.encoder_release encoder))] ++
                  [(Call.threadpool_release pool,
                    lib (w.trace ++ [(Call.encoder_release encoder,
                      lib w.trace (Call.encoder_release encoder))])
                      (Call.threadpool_release pool))] }
                (Output.error (lib (w.trace ++ [(Call.encoder_release encoder,
                      lib w.trace (Call.encoder_release encoder))])
                      (Call.threadpool_release pool)).result)) hm
            simp [cleanup, he, hp, TRY, World.call, hr, hr2, hz]
            simpa [World.fprintf_stderr, pool_releases, Call.fn, hp] using this
      · have hz := H w.trace (Call.encoder_release encoder) rfl hr
        have hm : cleanup_measure 0 pool < n := by
          simp [cleanup_measure, he] at hfuel ⊢; omega
        have := ih 0 pool (World.fprintf_stderr
          { w with trace := w.trace ++ [(Call.encoder_release encoder,
            lib w.trace (Call.encoder_release encoder))] }
          (Output.error (lib w.trace (Call.encoder_release encoder)).result)) hm
        simp [cleanup, he, TRY, World.call, hr, hz]
        simpa [World.fprintf_stderr, pool_releases, Call.fn] using this

/-- A run that only released since a world one release call later has only
released since the earlier world. -/
theorem OnlyReleasesSince_step (w : World) (run : Run) (c : Call) (r : Resp)
    (errs : List Output) (so : List Output) (hc : c.isRelease = true)
    (hrun : OnlyReleasesSince
      { trace := w.trace ++ [(c, r)], stderr := w.stderr ++ errs, stdout := so } run) :
    OnlyReleasesSince w run := by
  obtain ⟨rest, more, ht, hrel, he, hret⟩ := hrun
  refine ⟨(c, r) :: rest, errs ++ more, ?_, ?_, ?_, hret⟩
  · simpa using ht
  · intro x hx
    rcases List.mem_cons.mp hx with rfl | hx
    · exact hc
    · exact hrel x hx
  · simpa using he

/-- Whatever the library answers, `cleanup` makes release calls only and does
not return 0. -/
theorem cleanup_only_releases (h : mtpng_h) (lib : Lib) (fuel encoder pool : Nat) (w : World) :
    OnlyReleasesSince w (cleanup h lib fuel encoder pool w) := by
  induction fuel generalizing encoder pool w with
  | zero => exact ⟨[], [], by simp [cleanup], by simp, by simp [cleanup], by simp [cleanup]⟩
  | succ n ih =>
    have h146 : ∀ w2 : World, OnlyReleasesSince w2
        { ret := some 1, world := w2.printf Output.failed } := fun w2 =>
      ⟨[], [], by simp [World.printf], by simp, by simp [World.printf], by simp⟩
    have h142 : ∀ (e : Nat) (w2 : World), OnlyReleasesSince w2
        (if pool ≠ 0 then
          TRY h lib w2 (Call.threadpool_release pool)
            (fun pool w => cleanup h lib n e pool w)
            (fun _ w => { ret := some 1, world := w.printf Output.failed })
        else { ret := some 1, world := w2.printf Output.failed }) := by
      intro e w2
      split
      · apply TRY_cases
        · intro _
          exact OnlyReleasesSince_step w2 _ (Call.threadpool_release pool) _ _ _ rfl (ih _ _ _)
        · intro _
          refine OnlyReleasesSince_step w2 _ (Call.threadpool_release pool)
            (lib w2.trace (Call.threadpool_release pool)) [] w2.stdout rfl ?_
          simpa using h146 ⟨w2.trace ++ [(Call.threadpool_release pool,
            lib w2.trace (Call.threadpool_release pool))], w2.stderr, w2.stdout⟩
      · exact h146 w2
    unfold cleanup
    simp only
    split
    · apply TRY_cases
      · intro _
        exact OnlyReleasesSince_step w _ (Call.encoder_release encoder) _ _ _ rfl (ih _ _ _)
      · intro _
        refine OnlyReleasesSince_step w _ (Call.encoder_release encoder)
          (lib w.trace (Call.encoder_release encoder)) [] w.stdout rfl ?_
        simpa using h142 (lib w.trace (Call.encoder_release encoder)).handle
          ⟨w.trace ++ [(Call.encoder_release encoder,
            lib w.trace (Call.encoder_release encoder))], w.stderr, w.stdout⟩
    · exact h142 encoder w

/-- The first failing call of a trace is determined by the trace. -/
theorem first_failure_unique (ok : Int) (pre pre2 post post2 : List (Call × Resp))
    (x x2 : Call × Resp) (heq : pre ++ x :: post = pre2 ++ x2 :: post2)
    (hpre : ∀ e ∈ pre, e.2.result = ok) (hx : x.2.result ≠ ok)
    (hpre2 : ∀ e ∈ pre2, e.2.result = ok) (hx2 : x2.2.result ≠ ok) :
    pre = pre2 ∧ x = x2 ∧ post = post2 := by
  induction pre generalizing pre2 with
  | nil =>
    cases pre2 with
    | nil => simpa using heq
    | cons a t =>
      simp only [List.nil_append, List.cons_append, List.cons.injEq] at heq
      exact absurd (hpre2 a (by simp)) (heq.1 ▸ hx)
  | cons a t ih =>
    cases pre2 with
    | nil =>
      simp only [List.nil_append, List.cons_append, List.cons.injEq] at heq
      exact absurd (hpre a (by simp)) (heq.1 ▸ hx2)
    | cons b u =>
      simp only [List.cons_append, List.cons.injEq] at heq
      obtain ⟨h1, h2, h3⟩ := ih u heq.2 (fun e he => hpre e (by simp [he]))
        (fun e he => hpre2 e (by simp [he]))
      exact ⟨by rw [heq.1, h1], h2, h3⟩

/-- Every run of `main` after a successful `fopen` has one of the two shapes
of `RunShape`. -/
theorem main_cases (h : mtpng_h) (lib : Lib) (fopen_result encoder_indet fuel : Nat)
    (hopen : fopen_result ≠ 0) :
    RunShape h lib fuel (lib [] (Call.threadpool_new 0 h.MTPNG_THREADS_DEFAULT)).handle
      (main h lib fopen_result encoder_indet fuel) := by
  unfold main
  simp only [hopen, if_false]
  -- line 105
  apply TRY_cases <;> intro h1 <;> generalize hr1 : lib [] _ = r1 at h1 ⊢ <;>
    simp only [List.nil_append]
  · exact Or.inr ⟨[], _, r1, _, _, by simp, h1, rfl, Or.inl ⟨by simp [pool_releases, Call.fn], rfl⟩⟩
  apply TRY_cases <;> intro h2 <;> generalize hr2 : lib _ _ = r2 at h2 ⊢ <;>
    simp only [List.nil_append]
  · exact Or.inr ⟨_, _, r2, _, _, by simp [*], h2, rfl,
      Or.inl ⟨by simp [pool_releases, Call.fn], rfl⟩⟩
  apply TRY_cases <;> intro h3 <;> generalize hr3 : lib _ _ = r3 at h3 ⊢ <;>
    simp only [List.nil_append]
  · exact Or.inr ⟨_, _, r3, _, _, by simp [*], h3, rfl,
      Or.inl ⟨by simp [pool_releases, Call.fn], rfl⟩⟩
  apply TRY_cases <;> intro h4 <;> generalize hr4 : lib _ _ = r4 at h4 ⊢ <;>
    simp only [List.nil_append]
  · exact Or.inr ⟨_, _, r4, _, _, by simp [*], h4, rfl,
      Or.inl ⟨by simp [pool_releases, Call.fn], rfl⟩⟩
  apply TRY_cases <;> intro h5 <;> generalize hr5 : lib _ _ = r5 at h5 ⊢ <;>
    simp only [List.nil_append]
  · exact Or.inr ⟨_, _, r5, _, _, by simp [*], h5, rfl,
      Or.inl ⟨by simp [pool_releases, Call.fn], rfl⟩⟩
  apply TRY_cases <;> intro h6 <;> generalize hr6 : lib _ _ = r6 at h6 ⊢ <;>
    simp only [List.nil_append]
  · exact Or.inr ⟨_, _, r6, _, _, by simp [*], h6, rfl,
      Or.inl ⟨by simp [pool_releases, Call.fn], rfl⟩⟩
  apply TRY_cases <;> intro h7 <;> generalize hr7 : lib _ _ = r7 at h7 ⊢ <;>
    simp only [List.nil_append]
  · exact Or.inr ⟨_, _, r7, _, _, by simp [*], h7, rfl,
      Or.inl ⟨by simp [pool_releases, Call.fn], rfl⟩⟩
  apply TRY_cases <;> intro h8 <;> generalize hr8 : lib _ _ = r8 at h8 ⊢ <;>
    simp only [List.nil_append]
  · exact Or.inr ⟨_, _, r8, _, _, by simp [*], h8, rfl,
      Or.inl ⟨by simp [pool_releases, Call.fn], rfl⟩⟩
  apply TRY_cases <;> intro h9 <;> generalize hr9 : lib _ _ = r9 at h9 ⊢ <;>
    simp only [List.nil_append]
  · exact Or.inr ⟨_, _, r9, _, _, by simp [*], h9, rfl,
      Or.inl ⟨by simp [pool_releases, Call.fn], rfl⟩⟩
  -- line 132
  apply TRY_cases <;> intro h10 <;> generalize hr10 : lib _ _ = r10 at h10 ⊢ <;>
    simp only [List.nil_append]
  · exact Or.inr ⟨_, _, r10, _, _, by simp [*], h10, rfl,
      Or.inr ⟨by simp [pool_releases, Call.fn], rfl, hr10, rfl⟩⟩
  · exact Or.inl ⟨rfl, by simp [World.printf, *], by simp [World.printf, pool_releases, Call.fn],
      by simp [World.printf, Call.fn, main_path], rfl, rfl⟩

/-- With `lib_pool_release_fails`, `cleanup` entered with `encoder = NULL`
and `pool = 1` uses up any fuel: every pass makes one failing
`mtpng_threadpool_release` call and jumps back to the label. -/
theorem cleanup_with_pool_release_failing (fuel : Nat) (w : World) :
    cleanup header0 lib_pool_release_fails fuel 0 1 w =
      { ret := none,
        world :=
          { trace := w.trace ++ List.replicate fuel (Call.threadpool_release 1, ⟨1, 1⟩),
            stderr := w.stderr ++ List.replicate fuel (Output.error 1),
            stdout := w.stdout } } := by
  have hOK : header0.MTPNG_RESULT_OK = 0 := rfl
  induction fuel generalizing w with
  | zero => simp [cleanup]
  | succ n ih =>
    simp [cleanup, TRY, World.call, World.fprintf_stderr, lib_pool_release_fails, hOK, ih,
      List.replicate_succ]

/-- With `lib_pool_release_fails` the run of `main` is still inside `cleanup`
whatever the fuel: it has returned neither 1 nor 0, and after the failed
`mtpng_encoder_new` it has made `fuel` calls of `mtpng_threadpool_release`. -/
theorem run_with_pool_release_failing (fuel : Nat) :
    (main header0 lib_pool_release_fails 1 0 fuel).ret = none ∧
    (main header0 lib_pool_release_fails 1 0 fuel).world.trace =
      [(Call.threadpool_new 0 0, ⟨0, 1⟩), (Call.encoder_new 0 1 1, ⟨1, 0⟩)] ++
        List.replicate fuel (Call.threadpool_release 1, ⟨1, 1⟩) := by
  have hOK : header0.MTPNG_RESULT_OK = 0 := rfl
  have hT : header0.MTPNG_THREADS_DEFAULT = 0 := rfl
  simp [main, TRY, World.call, World.fprintf_stderr, lib_pool_release_fails, hOK, hT,
    cleanup_with_pool_release_failing]

/-- With `lib_encoder_release_fails`, `cleanup` entered with `encoder = 2`
and `pool = 1` uses up any fuel on failing `mtpng_encoder_release` calls. -/
theorem cleanup_with_encoder_release_failing (fuel : Nat) (w : World) :
    cleanup header0 lib_encoder_release_fails fuel 2 1 w =
      { ret := none,
        world :=
          { trace := w.trace ++ List.replicate fuel (Call.encoder_release 2, ⟨1, 2⟩),
            stderr := w.stderr ++ List.replicate fuel (Output.error 1),
            stdout := w.stdout } } := by
  have hOK : header0.MTPNG_RESULT_OK = 0 := rfl
  induction fuel generalizing w with
  | zero => simp [cleanup]
  | succ n ih =>
    simp [cleanup, TRY, World.call, World.fprintf_stderr, lib_encoder_release_fails, hOK,
      ih, List.replicate_succ]

/-- With `lib_encoder_release_fails` the run of `main` has not returned
whatever the fuel, and its trace holds no `mtpng_threadpool_release`: after
the two constructors and the failed `mtpng_encoder_set_chunk_size` it
consists of `mtpng_encoder_release` calls only. -/
theorem run_with_encoder_release_failing (fuel : Nat) :
    (main header0 lib_encoder_release_fails 1 0 fuel).ret = none ∧
    pool_releases (main header0 lib_encoder_release_fails 1 0 fuel).world.trace = [] ∧
    (main header0 lib_encoder_release_fails 1 0 fuel).world.trace =
      [(Call.threadpool_new 0 0, ⟨0, 1⟩), (Call.encoder_new 0 1 1, ⟨0, 2⟩),
       (Call.encoder_set_chunk_size 2 200000, ⟨1, 0⟩)] ++
        List.replicate fuel (Call.encoder_release 2, ⟨1, 2⟩) := by
  have hOK : header0.MTPNG_RESULT_OK = 0 := rfl
  have hT : header0.MTPNG_THREADS_DEFAULT = 0 := rfl
  simp [main, TRY, World.call, World.fprintf_stderr, lib_encoder_release_fails, hOK, hT,
    cleanup_with_encoder_release_failing, pool_releases, Call.fn, List.filter_replicate]

/-- `lib_set_size_fails` clears the handle of a release that fails. -/
theorem lib_set_size_fails_clears : release_error_clears_handle header0 lib_set_size_fails := by
  intro hist c hc hr
  cases c <;> first | rfl | exact absurd rfl hr

/-! ### The driver: the lifecycle and the cleanup path -/

/-- C1: in every run of `main` in which `fopen` succeeds and every library
call made returns `MTPNG_RESULT_OK`, the library calls are, in this order,
`mtpng_threadpool_new`, `mtpng_encoder_new`, `mtpng_encoder_set_chunk_size`,
`mtpng_encoder_set_size`, `mtpng_encoder_set_color`, `mtpng_encoder_set_filter`,
`mtpng_encoder_write_header`, `mtpng_encoder_write_image` (once),
`mtpng_encoder_finish` and `mtpng_threadpool_release`, and `main` returns 0
after printing `Done.` and no error; this holds for every amount of fuel. -/
theorem main_success_calls (h : mtpng_h) (lib : Lib) (fopen_result encoder_indet fuel : Nat)
    (hopen : fopen_result ≠ 0)
    (hok : ∀ e ∈ (main h lib fopen_result encoder_indet fuel).world.trace,
      e.2.result = h.MTPNG_RESULT_OK) :
    (main h lib fopen_result encoder_indet fuel).ret = some 0 ∧
    (main h lib fopen_result encoder_indet fuel).world.trace.map (fun e => e.1.fn) =
      [.mtpng_threadpool_new, .mtpng_encoder_new, .mtpng_encoder_set_chunk_size,
       .mtpng_encoder_set_size, .mtpng_encoder_set_color, .mtpng_encoder_set_filter,
       .mtpng_encoder_write_header, .mtpng_encoder_write_image, .mtpng_encoder_finish,
       .mtpng_threadpool_release] ∧
    (main h lib fopen_result encoder_indet fuel).world.stdout = [.done] ∧
    (main h lib fopen_result encoder_indet fuel).world.stderr = [] := by
  rcases main_cases h lib fopen_result encoder_indet fuel hopen with
    ⟨hret, _, _, hpath, hout, herr⟩ | ⟨pre, c, r, e, p, _, hr, hrun, _⟩
  · exact ⟨hret, hpath, hout, herr⟩
  · obtain ⟨rest, _, ht, _⟩ := cleanup_only_releases h lib fuel e p
      { trace := pre ++ [(c, r)], stderr := [Output.error r.result], stdout := [] }
    rw [← hrun] at ht
    exact absurd (hok (c, r) (by rw [ht]; simp)) hr

/-- Witness for C1: the library `lib_ok`, with `fopen` returning the
stream `1`. -/
theorem main_success_calls_witness :
    (main header0 lib_ok 1 0 0).ret = some 0 ∧
    (main header0 lib_ok 1 0 0).world.trace.map (fun e => e.1.fn) =
      [.mtpng_threadpool_new, .mtpng_encoder_new, .mtpng_encoder_set_chunk_size,
       .mtpng_encoder_set_size, .mtpng_encoder_set_color, .mtpng_encoder_set_filter,
       .mtpng_encoder_write_header, .mtpng_encoder_write_image, .mtpng_encoder_finish,
       .mtpng_threadpool_release] ∧
    (main header0 lib_ok 1 0 0).world.stdout = [.done] ∧
    (main header0 lib_ok 1 0 0).world.stderr = [] :=
  main_success_calls header0 lib_ok 1 0 0 (by decide) (by decide)

/-- C2, counterexample: `mtpng_threadpool_new` succeeds, `mtpng_encoder_new`
is the first call to fail, and every `mtpng_threadpool_release` fails without
clearing `pool`: the trace on arrival at `cleanup` shows the failing call in
second place, and no amount of fuel makes `main` return 1 (the run stays in
`cleanup`). -/
theorem main_stuck_in_cleanup :
    (main header0 lib_pool_release_fails 1 0 0).world.trace =
      [(Call.threadpool_new 0 0, ⟨0, 1⟩), (Call.encoder_new 0 1 1, ⟨1, 0⟩)] ∧
    ¬ ∃ fuel, (main header0 lib_pool_release_fails 1 0 fuel).ret = some 1 := by
  refine ⟨by decide, ?_⟩
  rintro ⟨fuel, hf⟩
  rw [(run_with_pool_release_failing fuel).1] at hf
  exact Option.noConfusion hf

/-- C2, amended: for every run of `main` and every position at which a
library call first returns a result other than `MTPNG_RESULT_OK` (the calls
`pre` before it succeeded, the call `c` answered `r`), `main` prints that
result as an error first, makes no further library call other than release
calls, and does not return 0; and it returns 1, given fuel for four passes
through `cleanup`, provided every release call that does not return
`MTPNG_RESULT_OK` leaves its handle NULL. -/
theorem main_first_failure (h : mtpng_h) (lib : Lib) (fopen_result encoder_indet fuel : Nat)
    (pre post : List (Call × Resp)) (c : Call) (r : Resp)
    (htrace : (main h lib fopen_result encoder_indet fuel).world.trace = pre ++ (c, r) :: post)
    (hpre : ∀ x ∈ pre, x.2.result = h.MTPNG_RESULT_OK)
    (hr : r.result ≠ h.MTPNG_RESULT_OK) :
    (main h lib fopen_result encoder_indet fuel).world.stderr.head? =
      some (Output.error r.result) ∧
    (∀ x ∈ post, x.1.isRelease = true) ∧
    (main h lib fopen_result encoder_indet fuel).ret ≠ some 0 ∧
    (release_error_clears_handle h lib → 4 ≤ fuel →
      (main h lib fopen_result encoder_indet fuel).ret = some 1) := by
  by_cases hopen : fopen_result = 0
  · simp [main, hopen, World.fprintf_stderr] at htrace
  · rcases main_cases h lib fopen_result encoder_indet fuel hopen with
      ⟨_, hall, _⟩ | ⟨pre2, c2, r2, e, p, hpre2, hr2, hrun, _⟩
    · exact absurd (hall (c, r) (by rw [htrace]; simp)) hr
    · obtain ⟨rest, more, ht, hrel, herr, hret⟩ := cleanup_only_releases h lib fuel e p
        { trace := pre2 ++ [(c2, r2)], stderr := [Output.error r2.result], stdout := [] }
      rw [← hrun] at ht herr hret
      have heq : pre ++ (c, r) :: post = pre2 ++ (c2, r2) :: rest := by
        rw [← htrace, ht]; simp
      obtain ⟨_, hx, hpost⟩ := first_failure_unique h.MTPNG_RESULT_OK pre pre2 post rest
        (c, r) (c2, r2) heq hpre hr hpre2 hr2
      have hrr : r = r2 := congrArg Prod.snd hx
      refine ⟨by rw [herr, hrr]; rfl, by rw [hpost]; exact hrel, hret, ?_⟩
      intro H hfuel
      rw [hrun]
      exact (cleanup_returns h lib H fuel e p _
        (lt_of_le_of_lt (cleanup_measure_le e p) (by omega))).1

/-- Witness for C2: with `lib_set_size_fails` the fourth call is the first
to fail; `main` then calls `mtpng_encoder_release` and
`mtpng_threadpool_release` only and returns 1. -/
theorem main_first_failure_witness :
    (main header0 lib_set_size_fails 1 0 4).world.stderr.head? = some (Output.error 1) ∧
    (∀ x ∈ [(Call.encoder_release 2, (⟨1, 0⟩ : Resp)), (Call.threadpool_release 1, ⟨0, 0⟩)],
      x.1.isRelease = true) ∧
    (main header0 lib_set_size_fails 1 0 4).ret ≠ some 0 ∧
    (main header0 lib_set_size_fails 1 0 4).ret = some 1 :=
  have t := main_first_failure header0 lib_set_size_fails 1 0 4
    [(Call.threadpool_new 0 0, ⟨0, 1⟩), (Call.encoder_new 0 1 1, ⟨0, 2⟩),
     (Call.encoder_set_chunk_size 2 200000, ⟨0, 0⟩)]
    [(Call.encoder_release 2, ⟨1, 0⟩), (Call.threadpool_release 1, ⟨0, 0⟩)]
    (Call.encoder_set_size 2 1024 768) ⟨1, 0⟩ (by decide) (by decide) (by decide)
  ⟨t.1, t.2.1, t.2.2.1, t.2.2.2 lib_set_size_fails_clears (by decide)⟩

/-- C3, counterexample: both handles are created (`pool = 1`, `encoder = 2`),
`mtpng_encoder_set_chunk_size` fails, and `mtpng_encoder_release` returns a
result other than `MTPNG_RESULT_OK` without clearing `encoder`: one pass
through `cleanup` ends with that call, and whatever the fuel the trace never
holds a `mtpng_threadpool_release`. -/
theorem main_never_releases_pool :
    (main header0 lib_encoder_release_fails 1 0 1).world.trace =
      [(Call.threadpool_new 0 0, ⟨0, 1⟩), (Call.encoder_new 0 1 1, ⟨0, 2⟩),
       (Call.encoder_set_chunk_size 2 200000, ⟨1, 0⟩), (Call.encoder_release 2, ⟨1, 2⟩)] ∧
    ¬ ∃ fuel, pool_releases (main header0 lib_encoder_release_fails 1 0 fuel).world.trace ≠ [] := by
  refine ⟨by decide, ?_⟩
  rintro ⟨fuel, hf⟩
  exact hf (run_with_encoder_release_failing fuel).2.1

/-- C3, amended: for every arrival at `cleanup` with both an encoder and a
pool created (both handles non-NULL), given fuel for four passes and
provided every release call that does not return `MTPNG_RESULT_OK` leaves its
handle NULL: `cleanup` first calls `mtpng_encoder_release` on the encoder
and, whatever that call returns, it calls `mtpng_threadpool_release` on the
pool, once, and returns 1. -/
theorem cleanup_releases_pool (h : mtpng_h) (lib : Lib) (fuel encoder pool : Nat) (w : World)
    (H : release_error_clears_handle h lib) (he : encoder ≠ 0) (hp : pool ≠ 0)
    (hfuel : 4 ≤ fuel) :
    (∃ rest, (cleanup h lib fuel encoder pool w).world.trace =
      w.trace ++ (Call.encoder_release encoder, lib w.trace (Call.encoder_release encoder))
        :: rest) ∧
    pool_releases (cleanup h lib fuel encoder pool w).world.trace =
      pool_releases w.trace ++ [Call.threadpool_release pool] ∧
    (cleanup h lib fuel encoder pool w).ret = some 1 := by
  have hm : cleanup_measure encoder pool < fuel :=
    lt_of_le_of_lt (cleanup_measure_le encoder pool) (by omega)
  have hmain := cleanup_returns h lib H fuel encoder pool w hm
  refine ⟨?_, by simpa [hp] using hmain.2, hmain.1⟩
  obtain ⟨n, rfl⟩ : ∃ n, fuel = n + 1 := ⟨fuel - 1, by omega⟩
  unfold cleanup
  simp only [he, hp, ne_eq, not_false_eq_true, if_true]
  refine TRY_cases (fun run => ∃ rest, run.world.trace =
    w.trace ++ (Call.encoder_release encoder, lib w.trace (Call.encoder_release encoder))
      :: rest) h lib w _ _ _ ?_ ?_
  · intro _
    obtain ⟨rest, _, ht, _⟩ := cleanup_only_releases h lib n
      (lib w.trace (Call.encoder_release encoder)).handle pool
      ⟨w.trace ++ [(Call.encoder_release encoder, lib w.trace (Call.encoder_release encoder))],
        w.stderr ++ [Output.error (lib w.trace (Call.encoder_release encoder)).result],
        w.stdout⟩
    exact ⟨rest, by rw [ht]; simp⟩
  · intro _
    refine TRY_cases (fun run => ∃ rest, run.world.trace =
      w.trace ++ (Call.encoder_release encoder, lib w.trace (Call.encoder_release encoder))
        :: rest) h lib _ _ _ _ ?_ ?_
    · intro _
      obtain ⟨rest, _, ht, _⟩ := cleanup_only_releases h lib n
        (lib w.trace (Call.encoder_release encoder)).handle
        (lib (w.trace ++ [(Call.encoder_release encoder,
          lib w.trace (Call.encoder_release encoder))]) (Call.threadpool_release pool)).handle
        ⟨w.trace ++ [(Call.encoder_release encoder,
            lib w.trace (Call.encoder_release encoder))] ++
          [(Call.threadpool_release pool,
            lib (w.trace ++ [(Call.encoder_release encoder,
              lib w.trace (Call.encoder_release encoder))]) (Call.threadpool_release pool))],
          w.stderr ++ [Output.error (lib (w.trace ++ [(Call.encoder_release encoder,
              lib w.trace (Call.encoder_release encoder))])
            (Call.threadpool_release pool)).result],
          w.stdout⟩
      exact ⟨(Call.threadpool_release pool,
        lib (w.trace ++ [(Call.encoder_release encoder,
          lib w.trace (Call.encoder_release encoder))]) (Call.threadpool_release pool)) :: rest,
        by rw [ht]; simp⟩
    · intro _
      exact ⟨[(Call.threadpool_release pool,
        lib (w.trace ++ [(Call.encoder_release encoder,
          lib w.trace (Call.encoder_release encoder))]) (Call.threadpool_release pool))],
        by simp [World.printf]⟩

/-- Witness for C3: `cleanup` reached with `encoder = 2` and `pool = 1` on
the library `lib_set_size_fails`, whose `mtpng_encoder_release` fails. -/
theorem cleanup_releases_pool_witness :
    (∃ rest, (cleanup header0 lib_set_size_fails 4 2 1 ⟨[], [], []⟩).world.trace =
      [] ++ (Call.encoder_release 2, lib_set_size_fails [] (Call.encoder_release 2)) :: rest) ∧
    pool_releases (cleanup header0 lib_set_size_fails 4 2 1 ⟨[], [], []⟩).world.trace =
      pool_releases [] ++ [Call.threadpool_release 1] ∧
    (cleanup header0 lib_set_size_fails 4 2 1 ⟨[], [], []⟩).ret = some 1 :=
  cleanup_releases_pool header0 lib_set_size_fails 4 2 1 ⟨[], [], []⟩
    lib_set_size_fails_clears (by decide) (by decide) (by decide)

/-- C4, counterexample: every call succeeds except the
`mtpng_threadpool_release` of line 132, which fails and leaves `pool`
as it is; `cleanup` then finds `pool` non-NULL and releases it again, so the
run, which returns 1, calls `mtpng_threadpool_release` twice on the pool. -/
theorem main_releases_pool_twice :
    (main header0 lib_first_pool_release_fails 1 0 1).ret = some 1 ∧
    (main header0 lib_first_pool_release_fails 1 0 1).world.trace.head? =
      some (Call.threadpool_new 0 0, ⟨0, 1⟩) ∧
    pool_releases (main header0 lib_first_pool_release_fails 1 0 1).world.trace =
      [Call.threadpool_release 1, Call.threadpool_release 1] := by
  decide

/-- C4, amended: for every run of `main` in which `mtpng_threadpool_new`
succeeded and stored a non-NULL pool, given fuel for four passes through
`cleanup`, and provided every release call that does not return
`MTPNG_RESULT_OK` leaves its handle NULL: whatever results the later library
calls return, `main` returns and `mtpng_threadpool_release` is called exactly
once, on that pool. -/
theorem main_releases_pool_once (h : mtpng_h) (lib : Lib)
    (fopen_result encoder_indet fuel : Nat) (hopen : fopen_result ≠ 0)
    (_hnew : (lib [] (Call.threadpool_new 0 h.MTPNG_THREADS_DEFAULT)).result =
      h.MTPNG_RESULT_OK)
    (hpool : (lib [] (Call.threadpool_new 0 h.MTPNG_THREADS_DEFAULT)).handle ≠ 0)
    (H : release_error_clears_handle h lib) (hfuel : 4 ≤ fuel) :
    (main h lib fopen_result encoder_indet fuel).ret ≠ none ∧
    pool_releases (main h lib fopen_result encoder_indet fuel).world.trace =
      [Call.threadpool_release
        (lib [] (Call.threadpool_new 0 h.MTPNG_THREADS_DEFAULT)).handle] := by
  rcases main_cases h lib fopen_result encoder_indet fuel hopen with
    ⟨hret, _, hrel, _⟩ | ⟨pre, c, r, e, p, _, hr, hrun, hcase⟩
  · exact ⟨by rw [hret]; simp, hrel⟩
  · have hc := cleanup_returns h lib H fuel e p
      { trace := pre ++ [(c, r)], stderr := [Output.error r.result], stdout := [] }
      (lt_of_le_of_lt (cleanup_measure_le e p) (by omega))
    rw [← hrun] at hc
    refine ⟨by rw [hc.1]; simp, ?_⟩
    rw [hc.2]
    rcases hcase with ⟨h0, hp⟩ | ⟨h1, hcr, hlib, hp⟩
    · rw [h0, hp]; simp [hpool]
    · have hz : r.handle = 0 := by
        rw [← hlib] at hr ⊢
        exact H pre c (by rw [hcr]; rfl) hr
      rw [h1, hp, hz]; simp

/-- Witness for C4: with `lib_set_size_fails` the pool `1` is released
once although `mtpng_encoder_set_size` and `mtpng_encoder_release` fail. -/
theorem main_releases_pool_once_witness :
    (main header0 lib_set_size_fails 1 0 4).ret ≠ none ∧
    pool_releases (main header0 lib_set_size_fails 1 0 4).world.trace =
      [Call.threadpool_release 1] :=
  main_releases_pool_once header0 lib_set_size_fails 1 0 4 (by decide) rfl (by decide)
    lib_set_size_fails_clears (by decide)

/-- C10, the failing run: `mtpng_threadpool_new` fails and the variable
`encoder`, whose initialiser the jump to `cleanup` has skipped, holds the
non-NULL value `3735928559`.  `cleanup` calls `mtpng_encoder_release` on it
although `mtpng_encoder_new` was never called. -/
theorem main_releases_encoder_never_created :
    main header0 lib_threadpool_new_fails 1 3735928559 1 =
      { ret := some 1,
        world :=
          { trace := [(Call.threadpool_new 0 0, ⟨1, 0⟩),
                      (Call.encoder_release 3735928559, ⟨0, 0⟩)],
            stderr := [.error 1],
            stdout := [.failed] } } ∧
    encoder_news (main header0 lib_threadpool_new_fails 1 3735928559 1).world.trace = [] := by
  decide

end Sample
